import Mathlib

/-!
Verification of the gopherbot CI build-orchestration jobs.

The repository consists of three Python scripts:
* `gopherci.py` — dispatcher for commit events; looks up the repository in
  `repositories.yaml` and spawns the handler named by the configured `type`;
* `localbuild.py` — the standard orchestrator: records event metadata,
  checks `clone_url`, acquires the per `repository/branch` exclusivity lock,
  extends the history namespace, classifies the clone URL transport with two
  regular expressions, and queues the build tasks;
* `localtrusted.py` — the trusted local variant: no lock, namespace keyed by
  the bare repository, direct `localexec` of the pipeline script.

Each script is embedded as a pure function from its inputs (arguments, the
repository configuration mapping, and the lock-acquisition outcome) to the
ordered trace of externally visible effects it performs, together with how
it terminates.
-/

namespace Gopherbot

/-- One externally visible effect of a job script: a call on the `Robot`
API (`SetParameter`, `Say`, `Log`, `Exclusive`, `ExtendNamespace`,
`AddTask`, `SpawnTask`). The `exclusive` event records the key, the
`queueTask` argument and the boolean result returned by the robot. -/
inductive Event where
  | setParameter (name value : String)
  | say (msg : String)
  | log (level msg : String)
  | exclusive (key : String) (queueTask : Bool) (result : Bool)
  | extendNamespace (key : String) (histories : Int)
  | addTask (name : String) (args : List String)
  | spawnTask (name : String) (args : List String)
deriving DecidableEq, Repr

/-- How a script run ends: it ran to the end of the file, called `exit()`,
or aborted with a Python `NameError` (reference to an unassigned variable). -/
inductive Outcome where
  | finished
  | exited
  | nameError
deriving DecidableEq, Repr

/-- One record of `repositories.yaml`: the fields the three scripts read.
A missing key of the Python dict is `none`. (`type` is called `rtype`
because `type` is reserved in Lean.) -/
structure RepoConf where
  clone_url : Option String := none
  keep_history : Option Int := none
  rtype : Option String := none
deriving DecidableEq, Repr

/-- The parsed `repositories.yaml`: repository identifier → record, `none`
when the repository is not listed. -/
def RepoData := String → Option RepoConf

/-- `a.isPre b` : the char list `a` is a prefix of `b` (Python
`str.startswith` on the underlying characters). -/
def isPre : List Char → List Char → Bool
  | [], _ => true
  | _ :: _, [] => false
  | c :: cs, d :: ds => c == d && isPre cs ds

/-- Python `clone_url.startswith(pre)`. -/
def startswith (s pre : String) : Bool := isPre pre.toList s.toList

/-- Characters that end the host group `[^:/]*` of both regular
expressions in `localbuild.py`. -/
def hostChar (c : Char) : Bool := !(c == ':' || c == '/')

/-- Backtracking semantics of the greedy optional group `(?:.*@)?` of both
regular expressions in `localbuild.py`: `.` does not match a newline, so the
group consumes up to the last `@` that occurs before the first newline;
`none` when no such `@` exists (the group then matches the empty string). -/
def dropToLastAt : List Char → Option (List Char)
  | [] => none
  | c :: cs =>
    if c = '\n' then none
    else
      match dropToLastAt cs with
      | some s => some s
      | none => if c = '@' then some cs else none

/-- Group 1 (`[^:/]*`, greedy) of both regular expressions of
`localbuild.py`, taken after the optional `(?:.*@)?` group. -/
def group1 (cs : List Char) : List Char :=
  ((dropToLastAt cs).getD cs).takeWhile hostChar

/-- `re.match(r"ssh://(?:.*@)?([^:/]*)(?::([^/]*)/)?", url)` from
`localbuild.py`, returning `(group 1, group 2)` on a match. The trailing
group matches `:` then group 2 (`[^/]*`, greedy) then a literal `/`, so it
participates exactly when the text after the host starts with `:` and a `/`
follows; group 2 is then the text between the `:` and the first such `/`
(possibly empty). -/
def sshMatch (url : String) : Option (String × Option String) :=
  let cs := url.toList
  if isPre "ssh://".toList cs then
    let rest := cs.drop 6
    let afterAt := (dropToLastAt rest).getD rest
    let host := afterAt.takeWhile hostChar
    let rem := afterAt.drop host.length
    let port : Option String :=
      match rem with
      | ':' :: tl =>
        if tl.any (fun c => c == '/') then
          some (String.mk (tl.takeWhile (fun c => !(c == '/'))))
        else none
      | _ => none
    some (String.mk host, port)
  else none

/-- `re.match(r"(?:.*@)?([^:/]*)", url)` from `localbuild.py`. Both parts
of the pattern may match the empty string, so the match always succeeds;
the result is group 1. -/
def looseMatch (url : String) : Option String :=
  some (String.mk (group1 url.toList))

/-- The SSH preparation block of `localbuild.py` (lines 58–71): skipped for
URLs starting with `"http"`; otherwise the `ssh://` regular expression is
tried, falling back to the loose `[user@]host` one. `match.group(2)` is
truthy in Python only when present and non-empty, so `-p port` is passed to
`ssh-scan` exactly in that case. -/
def sshTasks (clone_url : String) : List Event :=
  if startswith clone_url "http" then []
  else
    match sshMatch clone_url with
    | some (host, portGroup) =>
      Event.addTask "ssh-init" [] ::
        (match portGroup with
         | some p =>
           if p = "" then [Event.addTask "ssh-scan" [host]]
           else [Event.addTask "ssh-scan" ["-p", p, host]]
         | none => [Event.addTask "ssh-scan" [host]])
    | none =>
      match looseMatch clone_url with
      | some host => [Event.addTask "ssh-init" [], Event.addTask "ssh-scan" [host]]
      | none => []

/-- The `SetParameter` calls of `localbuild.py` (lines 28–35): repository
and branch always, the dependency triple when the job got four arguments. -/
def paramEvents (repository branch : String) (dep : Option (String × String)) :
    List Event :=
  [Event.setParameter "GOPHERCI_REPO" repository,
   Event.setParameter "GOPHERCI_BRANCH" branch] ++
    match dep with
    | some (deprepo, depbranch) =>
      [Event.setParameter "GOPHERCI_DEPBUILD" "true",
       Event.setParameter "GOPHERCI_DEPREPO" deprepo,
       Event.setParameter "GOPHERCI_DEPBRANCH" depbranch]
    | none => []

/-- `localbuild.py`. Inputs: the (repository, branch) arguments, the
optional (deprepo, depbranch) pair, the parsed repository data, and the
boolean that `bot.Exclusive(repobranch, False)` returns. When the
repository is not listed, `repoconf` is never assigned and the membership
test `"clone_url" not in repoconf` raises `NameError`. -/
def localbuild (repository branch : String) (dep : Option (String × String))
    (repodata : RepoData) (lockAcquired : Bool) : Outcome × List Event :=
  let ev := paramEvents repository branch dep
  match repodata repository with
  | none => (Outcome.nameError, ev)
  | some repoconf =>
    match repoconf.clone_url with
    | none =>
      (Outcome.exited,
        ev ++ [Event.say ("No \x27clone_url\x27 specified for \x27" ++ repository ++
          "\x27 in repositories.yaml")])
    | some clone_url =>
      let keep_history := repoconf.keep_history.getD 7
      let repobranch := repository ++ "/" ++ branch
      if lockAcquired then
        (Outcome.finished,
          ev ++
            [Event.exclusive repobranch false true,
             Event.extendNamespace repobranch keep_history] ++
            sshTasks clone_url ++
            [Event.addTask "git-sync" [clone_url, branch, repobranch, "true"],
             Event.addTask "runpipeline" [],
             Event.addTask "cleanup" []])
      else
        (Outcome.exited,
          ev ++
            [Event.exclusive repobranch false false,
             Event.log "Warn" ("Build of \x27" ++ repobranch ++
               "\x27 already in progress, exiting")])

/-- `localtrusted.py`. No `SetParameter`, no `Exclusive`: it extends the
namespace keyed by the bare repository and queues `git-sync` and
`localexec` directly. An unlisted repository raises `NameError` as in
`localbuild.py`. -/
def localtrusted (repository branch : String) (repodata : RepoData) :
    Outcome × List Event :=
  match repodata repository with
  | none => (Outcome.nameError, [])
  | some repoconf =>
    match repoconf.clone_url with
    | none =>
      (Outcome.exited,
        [Event.say ("No \x27clone_url\x27 specified for \x27" ++ repository ++
          "\x27 in repositories.yaml")])
    | some clone_url =>
      let keep_history := repoconf.keep_history.getD 7
      (Outcome.finished,
        [Event.extendNamespace repository keep_history,
         Event.addTask "git-sync" [clone_url, branch, repository, "true"],
         Event.addTask "localexec" [".gopherci/pipeline.sh"]])

/-- `gopherci.py`, the dispatcher: unlisted repository → debug log only;
missing `type` → user-visible error; `type == "none"` → debug log only;
otherwise `SpawnTask(repotype, [repository, branch])`. -/
def gopherci (repository branch : String) (repodata : RepoData) :
    Outcome × List Event :=
  match repodata repository with
  | none =>
    (Outcome.exited,
      [Event.log "Debug" ("Ignoring update on \x27" ++ repository ++
        "\x27, not listed in repositories.yaml")])
  | some repoconf =>
    match repoconf.rtype with
    | none =>
      (Outcome.exited,
        [Event.say ("No \x27type\x27 specified for " ++ repository)])
    | some repotype =>
      if repotype = "none" then
        (Outcome.exited,
          [Event.log "Debug" ("Ignoring update on \x27" ++ repository ++
            "\x27, repository type is \x27none\x27")])
      else
        (Outcome.finished, [Event.spawnTask repotype [repository, branch]])

/-- Projection of an event to an `AddTask` call. -/
def taskOf : Event → Option (String × List String)
  | Event.addTask n a => some (n, a)
  | _ => none

/-- Projection of an event to a `Say` call. -/
def sayOf : Event → Option String
  | Event.say m => some m
  | _ => none

/-- Projection of an event to a `Log` call. -/
def logOf : Event → Option (String × String)
  | Event.log l m => some (l, m)
  | _ => none

/-- Projection of an event to a `SpawnTask` call. -/
def spawnOf : Event → Option (String × List String)
  | Event.spawnTask n a => some (n, a)
  | _ => none

/-- Projection of an event to an `ExtendNamespace` call. -/
def extendOf : Event → Option (String × Int)
  | Event.extendNamespace k h => some (k, h)
  | _ => none

/-- Projection of an event to an `Exclusive` call. -/
def exclusiveOf : Event → Option (String × Bool × Bool)
  | Event.exclusive k q r => some (k, q, r)
  | _ => none

/-- Projection of an event to a `SetParameter` call. -/
def setParamOf : Event → Option (String × String)
  | Event.setParameter n v => some (n, v)
  | _ => none

/-- The `AddTask` calls of a trace, in order. -/
def tasksOf (es : List Event) : List (String × List String) := es.filterMap taskOf

/-- The `Say` calls of a trace, in order. -/
def saysOf (es : List Event) : List String := es.filterMap sayOf

/-- The `Log` calls of a trace, in order. -/
def logsOf (es : List Event) : List (String × String) := es.filterMap logOf

/-- The `SpawnTask` calls of a trace, in order. -/
def spawnsOf (es : List Event) : List (String × List String) := es.filterMap spawnOf

/-- The `ExtendNamespace` calls of a trace, in order. -/
def extendsOf (es : List Event) : List (String × Int) := es.filterMap extendOf

/-- The `Exclusive` calls of a trace, in order. -/
def exclusivesOf (es : List Event) : List (String × Bool × Bool) :=
  es.filterMap exclusiveOf

/-- The `SetParameter` calls of a trace, in order. -/
def setParamsOf (es : List Event) : List (String × String) :=
  es.filterMap setParamOf

/-- A configuration record holding only a `clone_url` field. -/
def confURL (url : String) : RepoConf := { clone_url := some url }

/-- A repository data mapping with a single entry. -/
def rdOf (repo : String) (c : RepoConf) : RepoData :=
  fun s => if s = repo then some c else none

/-- The empty repository data mapping. -/
def rdNone : RepoData := fun _ => none

@[simp] lemma tasksOf_append (l l' : List Event) :
    tasksOf (l ++ l') = tasksOf l ++ tasksOf l' :=
  List.filterMap_append l l' taskOf

@[simp] lemma saysOf_append (l l' : List Event) :
    saysOf (l ++ l') = saysOf l ++ saysOf l' :=
  List.filterMap_append l l' sayOf

@[simp] lemma logsOf_append (l l' : List Event) :
    logsOf (l ++ l') = logsOf l ++ logsOf l' :=
  List.filterMap_append l l' logOf

@[simp] lemma extendsOf_append (l l' : List Event) :
    extendsOf (l ++ l') = extendsOf l ++ extendsOf l' :=
  List.filterMap_append l l' extendOf

@[simp] lemma exclusivesOf_append (l l' : List Event) :
    exclusivesOf (l ++ l') = exclusivesOf l ++ exclusivesOf l' :=
  List.filterMap_append l l' exclusiveOf

@[simp] lemma setParamsOf_append (l l' : List Event) :
    setParamsOf (l ++ l') = setParamsOf l ++ setParamsOf l' :=
  List.filterMap_append l l' setParamOf

@[simp] lemma tasksOf_paramEvents (r b : String) (d : Option (String × String)) :
    tasksOf (paramEvents r b d) = [] := by
  rcases d with _ | ⟨dr, db⟩ <;> rfl

@[simp] lemma saysOf_paramEvents (r b : String) (d : Option (String × String)) :
    saysOf (paramEvents r b d) = [] := by
  rcases d with _ | ⟨dr, db⟩ <;> rfl

@[simp] lemma logsOf_paramEvents (r b : String) (d : Option (String × String)) :
    logsOf (paramEvents r b d) = [] := by
  rcases d with _ | ⟨dr, db⟩ <;> rfl

@[simp] lemma extendsOf_paramEvents (r b : String) (d : Option (String × String)) :
    extendsOf (paramEvents r b d) = [] := by
  rcases d with _ | ⟨dr, db⟩ <;> rfl

@[simp] lemma exclusivesOf_paramEvents (r b : String) (d : Option (String × String)) :
    exclusivesOf (paramEvents r b d) = [] := by
  rcases d with _ | ⟨dr, db⟩ <;> rfl

lemma setParamsOf_paramEvents_ne (r b : String) (d : Option (String × String)) :
    setParamsOf (paramEvents r b d) ≠ [] := by
  rcases d with _ | ⟨dr, db⟩ <;> simp [paramEvents, setParamsOf, setParamOf]

/-- Every event the SSH preparation block emits is an `AddTask` call. -/
lemma mem_sshTasks (url : String) (e : Event) (he : e ∈ sshTasks url) :
    ∃ n a, e = Event.addTask n a := by
  unfold sshTasks at he
  split at he
  · simp at he
  · split at he
    · rename_i host portGroup heq
      simp only [List.mem_cons] at he
      rcases he with rfl | he
      · exact ⟨_, _, rfl⟩
      · split at he
        · split at he <;> simp at he <;> exact ⟨_, _, he⟩
        · simp at he
          exact ⟨_, _, he⟩
    · split at he
      · simp at he
        rcases he with he | he <;> exact ⟨_, _, he⟩
      · simp at he

/-- Filters that ignore `AddTask` events are empty on the SSH block. -/
lemma sshTasks_filterMap_nil {α : Type} (f : Event → Option α)
    (hf : ∀ n a, f (Event.addTask n a) = none) (url : String) :
    (sshTasks url).filterMap f = [] := by
  rw [List.filterMap_eq_nil_iff]
  intro e he
  obtain ⟨n, a, rfl⟩ := mem_sshTasks url e he
  exact hf n a

@[simp] lemma extendsOf_sshTasks (url : String) : extendsOf (sshTasks url) = [] :=
  sshTasks_filterMap_nil extendOf (fun _ _ => rfl) url

@[simp] lemma exclusivesOf_sshTasks (url : String) :
    exclusivesOf (sshTasks url) = [] :=
  sshTasks_filterMap_nil exclusiveOf (fun _ _ => rfl) url

@[simp] lemma saysOf_sshTasks (url : String) : saysOf (sshTasks url) = [] :=
  sshTasks_filterMap_nil sayOf (fun _ _ => rfl) url

@[simp] lemma logsOf_sshTasks (url : String) : logsOf (sshTasks url) = [] :=
  sshTasks_filterMap_nil logOf (fun _ _ => rfl) url

/-- Evaluation of `localbuild.py` when the repository is not listed. -/
lemma localbuild_unlisted (repository branch : String)
    (dep : Option (String × String)) (repodata : RepoData) (lockAcquired : Bool)
    (habs : repodata repository = none) :
    localbuild repository branch dep repodata lockAcquired =
      (Outcome.nameError, paramEvents repository branch dep) := by
  simp [localbuild, habs]

/-- Evaluation of `localbuild.py` when the configuration lacks `clone_url`. -/
lemma localbuild_no_url (repository branch : String)
    (dep : Option (String × String)) (repodata : RepoData) (lockAcquired : Bool)
    (conf : RepoConf) (hconf : repodata repository = some conf)
    (hurl : conf.clone_url = none) :
    localbuild repository branch dep repodata lockAcquired =
      (Outcome.exited,
        paramEvents repository branch dep ++
          [Event.say ("No \x27clone_url\x27 specified for \x27" ++ repository ++
            "\x27 in repositories.yaml")]) := by
  simp [localbuild, hconf, hurl]

/-- Evaluation of `localbuild.py` when `bot.Exclusive` reports the lock held. -/
lemma localbuild_lock_held (repository branch : String)
    (dep : Option (String × String)) (repodata : RepoData) (conf : RepoConf)
    (url : String) (hconf : repodata repository = some conf)
    (hurl : conf.clone_url = some url) :
    localbuild repository branch dep repodata false =
      (Outcome.exited,
        paramEvents repository branch dep ++
          [Event.exclusive (repository ++ "/" ++ branch) false false,
           Event.log "Warn" ("Build of \x27" ++ (repository ++ "/" ++ branch) ++
             "\x27 already in progress, exiting")]) := by
  simp [localbuild, hconf, hurl]

/-- Evaluation of `localbuild.py` when the lock is acquired. -/
lemma localbuild_lock_acquired (repository branch : String)
    (dep : Option (String × String)) (repodata : RepoData) (conf : RepoConf)
    (url : String) (hconf : repodata repository = some conf)
    (hurl : conf.clone_url = some url) :
    localbuild repository branch dep repodata true =
      (Outcome.finished,
        paramEvents repository branch dep ++
          [Event.exclusive (repository ++ "/" ++ branch) false true,
           Event.extendNamespace (repository ++ "/" ++ branch)
             (conf.keep_history.getD 7)] ++
          sshTasks url ++
          [Event.addTask "git-sync"
             [url, branch, repository ++ "/" ++ branch, "true"],
           Event.addTask "runpipeline" [],
           Event.addTask "cleanup" []]) := by
  simp [localbuild, hconf, hurl]

/-- Evaluation of `localtrusted.py` on a listed repository with a
`clone_url`. -/
lemma localtrusted_eval (repository branch : String) (repodata : RepoData)
    (conf : RepoConf) (url : String) (hconf : repodata repository = some conf)
    (hurl : conf.clone_url = some url) :
    localtrusted repository branch repodata =
      (Outcome.finished,
        [Event.extendNamespace repository (conf.keep_history.getD 7),
         Event.addTask "git-sync" [url, branch, repository, "true"],
         Event.addTask "localexec" [".gopherci/pipeline.sh"]]) := by
  simp [localtrusted, hconf, hurl]

/-- C3: In the standard orchestrator, whenever the non-blocking lock
acquisition for the key `repository ++ "/" ++ branch` reports the lock
already held, exactly one warning is logged (and nothing else), the run
exits, and no task is added and no namespace extension occurs after the
failed acquisition. -/
theorem c3_lock_contention_single_warning (repository branch : String)
    (dep : Option (String × String)) (repodata : RepoData) (conf : RepoConf)
    (url : String) (hconf : repodata repository = some conf)
    (hurl : conf.clone_url = some url) :
    (localbuild repository branch dep repodata false).1 = Outcome.exited ∧
    logsOf (localbuild repository branch dep repodata false).2 =
      [("Warn", "Build of \x27" ++ (repository ++ "/" ++ branch) ++
        "\x27 already in progress, exiting")] ∧
    tasksOf (localbuild repository branch dep repodata false).2 = [] ∧
    extendsOf (localbuild repository branch dep repodata false).2 = [] := by
  have h := localbuild_lock_held repository branch dep repodata conf url hconf hurl
  simp only [h, logsOf_append, logsOf_paramEvents, tasksOf_append,
    tasksOf_paramEvents, extendsOf_append, extendsOf_paramEvents,
    List.nil_append]
  refine ⟨?_, ?_, ?_, ?_⟩ <;> trivial

/-- Witness for C3 at a concrete input. -/
theorem c3_witness :
    (localbuild "r" "b" none (rdOf "r" (confURL "u")) false).1 = Outcome.exited ∧
    logsOf (localbuild "r" "b" none (rdOf "r" (confURL "u")) false).2 =
      [("Warn", "Build of \x27" ++ ("r" ++ "/" ++ "b") ++
        "\x27 already in progress, exiting")] ∧
    tasksOf (localbuild "r" "b" none (rdOf "r" (confURL "u")) false).2 = [] ∧
    extendsOf (localbuild "r" "b" none (rdOf "r" (confURL "u")) false).2 = [] :=
  c3_lock_contention_single_warning "r" "b" none (rdOf "r" (confURL "u"))
    (confURL "u") "u" (by decide) (by decide)

/-- C4 counterexample: an aborted lock-contended run of `localbuild.py`
has already mutated the process-wide event-metadata parameters — the
`SetParameter` calls happen before the `Exclusive` attempt, so the abort is
not free of such side effects. -/
theorem c4_counterexample :
    (localbuild "r" "b" none (rdOf "r" (confURL "u")) false).1 = Outcome.exited ∧
    logsOf (localbuild "r" "b" none (rdOf "r" (confURL "u")) false).2 =
      [("Warn", "Build of \x27r/b\x27 already in progress, exiting")] ∧
    setParamsOf (localbuild "r" "b" none (rdOf "r" (confURL "u")) false).2 =
      [("GOPHERCI_REPO", "r"), ("GOPHERCI_BRANCH", "b")] := by decide

/-- C4 amended: when the standard orchestrator finds the lock already held,
the aborted run's trace consists of exactly the event-metadata parameter
events recorded before the lock attempt, the failed `Exclusive` call, and
the warning; in particular the abort adds no task, extends no namespace,
and mutates no parameter after the failed acquisition (its parameter
events are exactly the ones recorded before the attempt, and those are
never empty). -/
theorem c4_amended (repository branch : String) (dep : Option (String × String))
    (repodata : RepoData) (conf : RepoConf) (url : String)
    (hconf : repodata repository = some conf)
    (hurl : conf.clone_url = some url) :
    (localbuild repository branch dep repodata false).2 =
      paramEvents repository branch dep ++
        [Event.exclusive (repository ++ "/" ++ branch) false false,
         Event.log "Warn" ("Build of \x27" ++ (repository ++ "/" ++ branch) ++
           "\x27 already in progress, exiting")] ∧
    tasksOf (localbuild repository branch dep repodata false).2 = [] ∧
    extendsOf (localbuild repository branch dep repodata false).2 = [] ∧
    setParamsOf (localbuild repository branch dep repodata false).2 =
      setParamsOf (paramEvents repository branch dep) ∧
    setParamsOf (paramEvents repository branch dep) ≠ [] := by
  have h := localbuild_lock_held repository branch dep repodata conf url hconf hurl
  refine ⟨by simp only [h], ?_, ?_, ?_, setParamsOf_paramEvents_ne _ _ _⟩
  · simp only [h, tasksOf_append, tasksOf_paramEvents, List.nil_append]; rfl
  · simp only [h, extendsOf_append, extendsOf_paramEvents, List.nil_append]; rfl
  · simp only [h, setParamsOf_append]
    show setParamsOf (paramEvents repository branch dep) ++ [] = _
    simp

/-- Witness for C4's amended theorem at a concrete input. -/
theorem c4_witness :
    (localbuild "r2" "b2" none (rdOf "r2" (confURL "u")) false).2 =
      paramEvents "r2" "b2" none ++
        [Event.exclusive ("r2" ++ "/" ++ "b2") false false,
         Event.log "Warn" ("Build of \x27" ++ ("r2" ++ "/" ++ "b2") ++
           "\x27 already in progress, exiting")] ∧
    tasksOf (localbuild "r2" "b2" none (rdOf "r2" (confURL "u")) false).2 = [] ∧
    extendsOf (localbuild "r2" "b2" none (rdOf "r2" (confURL "u")) false).2 = [] ∧
    setParamsOf (localbuild "r2" "b2" none (rdOf "r2" (confURL "u")) false).2 =
      setParamsOf (paramEvents "r2" "b2" none) ∧
    setParamsOf (paramEvents "r2" "b2" none) ≠ [] :=
  c4_amended "r2" "b2" none (rdOf "r2" (confURL "u")) (confURL "u") "u"
    (by decide) (by decide)

/-- C7: for every configuration record missing `clone_url`, both
orchestrator variants produce exactly one user-visible error message and
terminate before any lock acquisition and before any task is added (and
before any namespace extension). -/
theorem c7_missing_clone_url (repository branch : String)
    (dep : Option (String × String)) (repodata : RepoData)
    (lockAcquired : Bool) (conf : RepoConf)
    (hconf : repodata repository = some conf)
    (hurl : conf.clone_url = none) :
    (localbuild repository branch dep repodata lockAcquired).1 = Outcome.exited ∧
    saysOf (localbuild repository branch dep repodata lockAcquired).2 =
      ["No \x27clone_url\x27 specified for \x27" ++ repository ++
        "\x27 in repositories.yaml"] ∧
    exclusivesOf (localbuild repository branch dep repodata lockAcquired).2 = [] ∧
    tasksOf (localbuild repository branch dep repodata lockAcquired).2 = [] ∧
    extendsOf (localbuild repository branch dep repodata lockAcquired).2 = [] ∧
    (localtrusted repository branch repodata).1 = Outcome.exited ∧
    saysOf (localtrusted repository branch repodata).2 =
      ["No \x27clone_url\x27 specified for \x27" ++ repository ++
        "\x27 in repositories.yaml"] ∧
    exclusivesOf (localtrusted repository branch repodata).2 = [] ∧
    tasksOf (localtrusted repository branch repodata).2 = [] ∧
    extendsOf (localtrusted repository branch repodata).2 = [] := by
  have h := localbuild_no_url repository branch dep repodata lockAcquired conf
    hconf hurl
  have h2 : localtrusted repository branch repodata =
      (Outcome.exited,
        [Event.say ("No \x27clone_url\x27 specified for \x27" ++ repository ++
          "\x27 in repositories.yaml")]) := by
    simp [localtrusted, hconf, hurl]
  simp only [h, h2, saysOf_append, saysOf_paramEvents, exclusivesOf_append,
    exclusivesOf_paramEvents, tasksOf_append, tasksOf_paramEvents,
    extendsOf_append, extendsOf_paramEvents, List.nil_append]
  refine ⟨?_, ?_, ?_, ?_, ?_, ?_, ?_, ?_, ?_, ?_⟩ <;> trivial

/-- Witness for C7 at a concrete input. -/
theorem c7_witness :
    (localbuild "r" "b" none (rdOf "r" {}) true).1 = Outcome.exited ∧
    saysOf (localbuild "r" "b" none (rdOf "r" {}) true).2 =
      ["No \x27clone_url\x27 specified for \x27" ++ "r" ++
        "\x27 in repositories.yaml"] ∧
    exclusivesOf (localbuild "r" "b" none (rdOf "r" {}) true).2 = [] ∧
    tasksOf (localbuild "r" "b" none (rdOf "r" {}) true).2 = [] ∧
    extendsOf (localbuild "r" "b" none (rdOf "r" {}) true).2 = [] ∧
    (localtrusted "r" "b" (rdOf "r" {})).1 = Outcome.exited ∧
    saysOf (localtrusted "r" "b" (rdOf "r" {})).2 =
      ["No \x27clone_url\x27 specified for \x27" ++ "r" ++
        "\x27 in repositories.yaml"] ∧
    exclusivesOf (localtrusted "r" "b" (rdOf "r" {})).2 = [] ∧
    tasksOf (localtrusted "r" "b" (rdOf "r" {})).2 = [] ∧
    extendsOf (localtrusted "r" "b" (rdOf "r" {})).2 = [] :=
  c7_missing_clone_url "r" "b" none (rdOf "r" {}) true {} (by decide) (by decide)

/-- C9: for `clone_url = "ssh://git@host.example:2222/repo.git"`, the
classifier extracts host `"host.example"` and port `"2222"` (the URL is
SSH, not HTTP), and the standard orchestrator queues exactly, in order:
`ssh-init` (no arguments), `ssh-scan ["-p", "2222", "host.example"]`,
`git-sync [clone_url, branch, repository ++ "/" ++ branch, "true"]`,
`runpipeline` (no arguments), and `cleanup` (no arguments) last. -/
theorem c9_ssh_url_with_port_task_order (repository branch : String)
    (dep : Option (String × String)) (repodata : RepoData) (conf : RepoConf)
    (hconf : repodata repository = some conf)
    (hurl : conf.clone_url = some "ssh://git@host.example:2222/repo.git") :
    startswith "ssh://git@host.example:2222/repo.git" "http" = false ∧
    sshMatch "ssh://git@host.example:2222/repo.git" =
      some ("host.example", some "2222") ∧
    tasksOf (localbuild repository branch dep repodata true).2 =
      [("ssh-init", []),
       ("ssh-scan", ["-p", "2222", "host.example"]),
       ("git-sync", ["ssh://git@host.example:2222/repo.git", branch,
         repository ++ "/" ++ branch, "true"]),
       ("runpipeline", []),
       ("cleanup", [])] := by
  have h := localbuild_lock_acquired repository branch dep repodata conf
    "ssh://git@host.example:2222/repo.git" hconf hurl
  have hs : tasksOf (sshTasks "ssh://git@host.example:2222/repo.git") =
      [("ssh-init", []), ("ssh-scan", ["-p", "2222", "host.example"])] := by
    decide
  refine ⟨by decide, by decide, ?_⟩
  simp only [h, tasksOf_append, tasksOf_paramEvents, List.nil_append, hs]
  rfl

/-- Witness for C9 at a concrete input. -/
theorem c9_witness :
    startswith "ssh://git@host.example:2222/repo.git" "http" = false ∧
    sshMatch "ssh://git@host.example:2222/repo.git" =
      some ("host.example", some "2222") ∧
    tasksOf (localbuild "r" "b" none
      (rdOf "r" (confURL "ssh://git@host.example:2222/repo.git")) true).2 =
      [("ssh-init", []),
       ("ssh-scan", ["-p", "2222", "host.example"]),
       ("git-sync", ["ssh://git@host.example:2222/repo.git", "b",
         "r" ++ "/" ++ "b", "true"]),
       ("runpipeline", []),
       ("cleanup", [])] :=
  c9_ssh_url_with_port_task_order "r" "b" none
    (rdOf "r" (confURL "ssh://git@host.example:2222/repo.git"))
    (confURL "ssh://git@host.example:2222/repo.git") (by decide) (by decide)

/-- C10: when the repository is not listed in the repository data, both
orchestrator variants abort with a Python `NameError` (the configuration
record variable is assigned only inside the `if repository in repodata`
block, and there is no else branch), so the missing-repository case is an
unbound-variable error, not a reported configuration error: no `Say`
message, no lock acquisition, no task, no namespace extension. -/
theorem c10_unlisted_repository_name_error (repository branch : String)
    (dep : Option (String × String)) (repodata : RepoData) (lockAcquired : Bool)
    (habs : repodata repository = none) :
    (localbuild repository branch dep repodata lockAcquired).1 =
      Outcome.nameError ∧
    saysOf (localbuild repository branch dep repodata lockAcquired).2 = [] ∧
    tasksOf (localbuild repository branch dep repodata lockAcquired).2 = [] ∧
    exclusivesOf (localbuild repository branch dep repodata lockAcquired).2 = [] ∧
    extendsOf (localbuild repository branch dep repodata lockAcquired).2 = [] ∧
    (localtrusted repository branch repodata).1 = Outcome.nameError ∧
    (localtrusted repository branch repodata).2 = [] := by
  have h := localbuild_unlisted repository branch dep repodata lockAcquired habs
  have h2 : localtrusted repository branch repodata = (Outcome.nameError, []) := by
    simp [localtrusted, habs]
  simp only [h, h2, saysOf_paramEvents, tasksOf_paramEvents,
    exclusivesOf_paramEvents, extendsOf_paramEvents]
  refine ⟨?_, ?_, ?_, ?_, ?_, ?_, ?_⟩ <;> trivial

/-- Witness for C10 at a concrete input. -/
theorem c10_witness :
    (localbuild "r" "b" none rdNone true).1 = Outcome.nameError ∧
    saysOf (localbuild "r" "b" none rdNone true).2 = [] ∧
    tasksOf (localbuild "r" "b" none rdNone true).2 = [] ∧
    exclusivesOf (localbuild "r" "b" none rdNone true).2 = [] ∧
    extendsOf (localbuild "r" "b" none rdNone true).2 = [] ∧
    (localtrusted "r" "b" rdNone).1 = Outcome.nameError ∧
    (localtrusted "r" "b" rdNone).2 = [] :=
  c10_unlisted_repository_name_error "r" "b" none rdNone true rfl

/-- Modelled from the spec: §4.3 describes the fallback classifier case as
"a looser pattern `[user@]host[:...]` (e.g., `git@host:path`)" whose match
extracts a host. Read as the spec words it — with an actual host token —
a URL matches the loose pattern when the extracted host is non-empty.
Claim C6 quantifies over clone URLs matching neither this, nor the
`ssh://` pattern, nor the HTTP prefix. The code's own fallback expression
`(?:.*@)?([^:/]*)` (`looseMatch` above) instead matches every string. -/
def specLooseMatches (url : String) : Bool := !(group1 url.toList).isEmpty

/-- C1 counterexample: the local-trusted orchestrator variant extends the
namespace (allocates its history slot) without any lock acquisition at
all — its trace contains an `ExtendNamespace` call and no `Exclusive`
call, refuting "no variant reaches the allocation step without first
acquiring the lock". -/
theorem c1_counterexample :
    extendsOf (localtrusted "r" "b" (rdOf "r" (confURL "u"))).2 = [("r", 7)] ∧
    exclusivesOf (localtrusted "r" "b" (rdOf "r" (confURL "u"))).2 = [] := by
  decide

/-- C1 amended: in the standard orchestrator, the namespace is extended
only after a successful exclusive-lock acquisition for the build key —
with the lock reported held no extension happens, and with it acquired the
extension event immediately follows the successful `Exclusive` event while
the events before the lock attempt contain no extension. The local-trusted
variant, however, extends the namespace (keyed by the bare repository)
without acquiring any lock. -/
theorem c1_allocation_after_lock_amended (repository branch : String)
    (dep : Option (String × String)) (repodata : RepoData) (conf : RepoConf)
    (url : String) (hconf : repodata repository = some conf)
    (hurl : conf.clone_url = some url) :
    extendsOf (localbuild repository branch dep repodata false).2 = [] ∧
    (localbuild repository branch dep repodata true).2 =
      paramEvents repository branch dep ++
        [Event.exclusive (repository ++ "/" ++ branch) false true,
         Event.extendNamespace (repository ++ "/" ++ branch)
           (conf.keep_history.getD 7)] ++
        sshTasks url ++
        [Event.addTask "git-sync"
           [url, branch, repository ++ "/" ++ branch, "true"],
         Event.addTask "runpipeline" [],
         Event.addTask "cleanup" []] ∧
    extendsOf (paramEvents repository branch dep) = [] ∧
    extendsOf (localtrusted repository branch repodata).2 =
      [(repository, conf.keep_history.getD 7)] ∧
    exclusivesOf (localtrusted repository branch repodata).2 = [] := by
  have hh := localbuild_lock_held repository branch dep repodata conf url hconf hurl
  have ha := localbuild_lock_acquired repository branch dep repodata conf url
    hconf hurl
  have ht := localtrusted_eval repository branch repodata conf url hconf hurl
  refine ⟨?_, by simp only [ha], extendsOf_paramEvents _ _ _, ?_, ?_⟩
  · simp only [hh, extendsOf_append, extendsOf_paramEvents, List.nil_append]
    rfl
  · simp only [ht]; rfl
  · simp only [ht]; rfl

/-- Witness for C1's amended theorem at a concrete input. -/
theorem c1_witness :
    extendsOf (localbuild "r3" "b3" none (rdOf "r3" (confURL "u")) false).2 = [] ∧
    (localbuild "r3" "b3" none (rdOf "r3" (confURL "u")) true).2 =
      paramEvents "r3" "b3" none ++
        [Event.exclusive ("r3" ++ "/" ++ "b3") false true,
         Event.extendNamespace ("r3" ++ "/" ++ "b3")
           ((confURL "u").keep_history.getD 7)] ++
        sshTasks "u" ++
        [Event.addTask "git-sync" ["u", "b3", "r3" ++ "/" ++ "b3", "true"],
         Event.addTask "runpipeline" [],
         Event.addTask "cleanup" []] ∧
    extendsOf (paramEvents "r3" "b3" none) = [] ∧
    extendsOf (localtrusted "r3" "b3" (rdOf "r3" (confURL "u"))).2 =
      [("r3", (confURL "u").keep_history.getD 7)] ∧
    exclusivesOf (localtrusted "r3" "b3" (rdOf "r3" (confURL "u"))).2 = [] :=
  c1_allocation_after_lock_amended "r3" "b3" none (rdOf "r3" (confURL "u"))
    (confURL "u") "u" (by decide) (by decide)

/-- C2 counterexample: for the local-trusted build kind with
`clone_url = "git@host:repo.git"`, the emitted task list is not the claimed
`ssh-init, ssh-scan ["host"], sync, local-exec`: it contains no SSH task at
all — only `git-sync` and `localexec`. -/
theorem c2_counterexample :
    tasksOf (localtrusted "r" "b" (rdOf "r" (confURL "git@host:repo.git"))).2 =
      [("git-sync", ["git@host:repo.git", "b", "r", "true"]),
       ("localexec", [".gopherci/pipeline.sh"])] ∧
    (tasksOf (localtrusted "r" "b"
        (rdOf "r" (confURL "git@host:repo.git"))).2).map Prod.fst =
      ["git-sync", "localexec"] := by decide

/-- C2 amended: for the local-trusted build kind with
`clone_url = "git@host:repo.git"`, the emitted task list is exactly the
source-sync task `git-sync [clone_url, branch, repository, "true"]`
followed by the local-execution task `localexec [".gopherci/pipeline.sh"]`;
no SSH tasks are emitted (the variant never classifies the URL) and no
cleanup task is appended. -/
theorem c2_localtrusted_tasks_amended (repository branch : String)
    (repodata : RepoData) (conf : RepoConf)
    (hconf : repodata repository = some conf)
    (hurl : conf.clone_url = some "git@host:repo.git") :
    (localtrusted repository branch repodata).1 = Outcome.finished ∧
    tasksOf (localtrusted repository branch repodata).2 =
      [("git-sync", ["git@host:repo.git", branch, repository, "true"]),
       ("localexec", [".gopherci/pipeline.sh"])] := by
  have ht := localtrusted_eval repository branch repodata conf
    "git@host:repo.git" hconf hurl
  simp only [ht]
  refine ⟨?_, ?_⟩ <;> trivial

/-- Witness for C2's amended theorem at a concrete input. -/
theorem c2_witness :
    (localtrusted "r" "b" (rdOf "r" (confURL "git@host:repo.git"))).1 =
      Outcome.finished ∧
    tasksOf (localtrusted "r" "b" (rdOf "r" (confURL "git@host:repo.git"))).2 =
      [("git-sync", ["git@host:repo.git", "b", "r", "true"]),
       ("localexec", [".gopherci/pipeline.sh"])] :=
  c2_localtrusted_tasks_amended "r" "b" (rdOf "r" (confURL "git@host:repo.git"))
    (confURL "git@host:repo.git") (by decide) (by decide)

/-- C5 counterexample: the local-trusted variant does not use
`repository ++ "/" ++ branch` as its key — it extends the namespace and
passes the sync key using the bare repository (`"r"`, not `"r/b"`), and
never touches the exclusivity lock. -/
theorem c5_counterexample :
    extendsOf (localtrusted "r" "b" (rdOf "r" (confURL "u2"))).2 = [("r", 7)] ∧
    exclusivesOf (localtrusted "r" "b" (rdOf "r" (confURL "u2"))).2 = [] ∧
    tasksOf (localtrusted "r" "b" (rdOf "r" (confURL "u2"))).2 =
      [("git-sync", ["u2", "b", "r", "true"]),
       ("localexec", [".gopherci/pipeline.sh"])] ∧
    ("r" : String) ≠ "r" ++ "/" ++ "b" := by decide

/-- C5 amended: in the standard orchestrator the single key
`repository ++ "/" ++ branch` is used for the exclusivity lock, the
namespace series, and the key argument of the source-sync task; the
local-trusted variant instead acquires no lock and uses the bare
repository both as its namespace key and as its sync key. -/
theorem c5_lock_key_amended (repository branch : String)
    (dep : Option (String × String)) (repodata : RepoData) (conf : RepoConf)
    (url : String) (hconf : repodata repository = some conf)
    (hurl : conf.clone_url = some url) :
    exclusivesOf (localbuild repository branch dep repodata true).2 =
      [(repository ++ "/" ++ branch, false, true)] ∧
    extendsOf (localbuild repository branch dep repodata true).2 =
      [(repository ++ "/" ++ branch, conf.keep_history.getD 7)] ∧
    tasksOf (localbuild repository branch dep repodata true).2 =
      tasksOf (sshTasks url) ++
        [("git-sync", [url, branch, repository ++ "/" ++ branch, "true"]),
         ("runpipeline", []), ("cleanup", [])] ∧
    extendsOf (localtrusted repository branch repodata).2 =
      [(repository, conf.keep_history.getD 7)] ∧
    exclusivesOf (localtrusted repository branch repodata).2 = [] ∧
    tasksOf (localtrusted repository branch repodata).2 =
      [("git-sync", [url, branch, repository, "true"]),
       ("localexec", [".gopherci/pipeline.sh"])] := by
  have ha := localbuild_lock_acquired repository branch dep repodata conf url
    hconf hurl
  have ht := localtrusted_eval repository branch repodata conf url hconf hurl
  refine ⟨?_, ?_, ?_, ?_, ?_, ?_⟩
  · simp only [ha, exclusivesOf_append, exclusivesOf_paramEvents,
      exclusivesOf_sshTasks, List.nil_append]
    rfl
  · simp only [ha, extendsOf_append, extendsOf_paramEvents,
      extendsOf_sshTasks, List.nil_append]
    rfl
  · simp only [ha, tasksOf_append, tasksOf_paramEvents, List.nil_append]
    rfl
  · simp only [ht]; rfl
  · simp only [ht]; rfl
  · simp only [ht]; rfl

/-- Witness for C5's amended theorem at a concrete input. -/
theorem c5_witness :
    exclusivesOf (localbuild "r5" "b5" none (rdOf "r5" (confURL "u")) true).2 =
      [("r5" ++ "/" ++ "b5", false, true)] ∧
    extendsOf (localbuild "r5" "b5" none (rdOf "r5" (confURL "u")) true).2 =
      [("r5" ++ "/" ++ "b5", (confURL "u").keep_history.getD 7)] ∧
    tasksOf (localbuild "r5" "b5" none (rdOf "r5" (confURL "u")) true).2 =
      tasksOf (sshTasks "u") ++
        [("git-sync", ["u", "b5", "r5" ++ "/" ++ "b5", "true"]),
         ("runpipeline", []), ("cleanup", [])] ∧
    extendsOf (localtrusted "r5" "b5" (rdOf "r5" (confURL "u"))).2 =
      [("r5", (confURL "u").keep_history.getD 7)] ∧
    exclusivesOf (localtrusted "r5" "b5" (rdOf "r5" (confURL "u"))).2 = [] ∧
    tasksOf (localtrusted "r5" "b5" (rdOf "r5" (confURL "u"))).2 =
      [("git-sync", ["u", "b5", "r5", "true"]),
       ("localexec", [".gopherci/pipeline.sh"])] :=
  c5_lock_key_amended "r5" "b5" none (rdOf "r5" (confURL "u")) (confURL "u")
    "u" (by decide) (by decide)

/-- C6 counterexample: `":"` starts with no HTTP prefix, fails the
`ssh://` pattern, and matches no `[user@]host` pattern in the spec's sense
(the extracted host is empty) — yet the standard orchestrator still
prepends `ssh-init` and `ssh-scan` (scanning the empty host) instead of
syncing the bare URL with no SSH tasks: the code's fallback expression
matches every string, so the claimed no-match case never takes effect. -/
theorem c6_counterexample :
    startswith ":" "http" = false ∧
    sshMatch ":" = none ∧
    specLooseMatches ":" = false ∧
    tasksOf (localbuild "r" "b" none (rdOf "r" (confURL ":")) true).2 =
      [("ssh-init", []), ("ssh-scan", [""]),
       ("git-sync", [":", "b", "r/b", "true"]),
       ("runpipeline", []), ("cleanup", [])] := by decide

/-- C6 amended: the code's loose fallback expression `(?:.*@)?([^:/]*)`
matches every string (with a possibly empty host), so no clone URL reaches
a bare-URL-without-SSH-tasks case: for every clone URL that neither starts
with `"http"` nor matches the `ssh://` pattern, the standard orchestrator
prepends `ssh-init` and `ssh-scan [host]` — `host` being the possibly
empty group-1 text — before the source-sync task on the bare URL. -/
theorem c6_loose_fallback_amended (repository branch : String)
    (dep : Option (String × String)) (repodata : RepoData) (conf : RepoConf)
    (url : String) (hconf : repodata repository = some conf)
    (hurl : conf.clone_url = some url)
    (hhttp : startswith url "http" = false)
    (hssh : sshMatch url = none) :
    looseMatch url = some (String.mk (group1 url.toList)) ∧
    tasksOf (localbuild repository branch dep repodata true).2 =
      [("ssh-init", []), ("ssh-scan", [String.mk (group1 url.toList)]),
       ("git-sync", [url, branch, repository ++ "/" ++ branch, "true"]),
       ("runpipeline", []), ("cleanup", [])] := by
  have ha := localbuild_lock_acquired repository branch dep repodata conf url
    hconf hurl
  have hsts : sshTasks url =
      [Event.addTask "ssh-init" [],
       Event.addTask "ssh-scan" [String.mk (group1 url.toList)]] := by
    simp [sshTasks, hhttp, hssh, looseMatch]
  refine ⟨rfl, ?_⟩
  simp only [ha, tasksOf_append, tasksOf_paramEvents, List.nil_append, hsts]
  rfl

/-- Witness for C6's amended theorem at a concrete input. -/
theorem c6_witness :
    looseMatch ":" = some (String.mk (group1 (":").toList)) ∧
    tasksOf (localbuild "r6" "b6" none (rdOf "r6" (confURL ":")) true).2 =
      [("ssh-init", []), ("ssh-scan", [String.mk (group1 (":").toList)]),
       ("git-sync", [":", "b6", "r6" ++ "/" ++ "b6", "true"]),
       ("runpipeline", []), ("cleanup", [])] :=
  c6_loose_fallback_amended "r6" "b6" none (rdOf "r6" (confURL ":"))
    (confURL ":") ":" (by decide) (by decide) (by decide) (by decide)

/-- C8: the dispatcher spawns exactly one handler — named by the
configured `type` and given `(repository, branch)` unmodified — exactly
when the repository is listed, has a `type` field, and the type is not
`"none"`; when the repository is not listed, the event ends with a debug
log only: no user-visible error, no spawn, no task. -/
theorem c8_dispatch_spawn (repository branch : String) (repodata : RepoData) :
    (repodata repository = none →
      (gopherci repository branch repodata).1 = Outcome.exited ∧
      saysOf (gopherci repository branch repodata).2 = [] ∧
      spawnsOf (gopherci repository branch repodata).2 = [] ∧
      tasksOf (gopherci repository branch repodata).2 = [] ∧
      logsOf (gopherci repository branch repodata).2 =
        [("Debug", "Ignoring update on \x27" ++ repository ++
          "\x27, not listed in repositories.yaml")]) ∧
    (∀ conf t, repodata repository = some conf → conf.rtype = some t →
      t ≠ "none" →
      (gopherci repository branch repodata).1 = Outcome.finished ∧
      spawnsOf (gopherci repository branch repodata).2 =
        [(t, [repository, branch])]) ∧
    (∀ conf, repodata repository = some conf → conf.rtype = none →
      spawnsOf (gopherci repository branch repodata).2 = []) ∧
    (∀ conf, repodata repository = some conf → conf.rtype = some "none" →
      spawnsOf (gopherci repository branch repodata).2 = []) := by
  refine ⟨?_, ?_, ?_, ?_⟩
  · intro habs
    have h : gopherci repository branch repodata =
        (Outcome.exited,
          [Event.log "Debug" ("Ignoring update on \x27" ++ repository ++
            "\x27, not listed in repositories.yaml")]) := by
      simp [gopherci, habs]
    simp only [h]
    refine ⟨?_, ?_, ?_, ?_, ?_⟩ <;> trivial
  · intro conf t hconf ht hne
    have h : gopherci repository branch repodata =
        (Outcome.finished, [Event.spawnTask t [repository, branch]]) := by
      simp [gopherci, hconf, ht, hne]
    simp only [h]
    refine ⟨?_, ?_⟩ <;> trivial
  · intro conf hconf ht
    have h : gopherci repository branch repodata =
        (Outcome.exited,
          [Event.say ("No \x27type\x27 specified for " ++ repository)]) := by
      simp [gopherci, hconf, ht]
    simp only [h]
    rfl
  · intro conf hconf ht
    have h : gopherci repository branch repodata =
        (Outcome.exited,
          [Event.log "Debug" ("Ignoring update on \x27" ++ repository ++
            "\x27, repository type is \x27none\x27")]) := by
      simp [gopherci, hconf, ht]
    simp only [h]
    rfl

/-- Witness for C8 at a concrete input. -/
theorem c8_witness :
    (gopherci "r" "b" (rdOf "r" { rtype := some "build" })).1 =
      Outcome.finished ∧
    spawnsOf (gopherci "r" "b" (rdOf "r" { rtype := some "build" })).2 =
      [("build", ["r", "b"])] :=
  (c8_dispatch_spawn "r" "b" (rdOf "r" { rtype := some "build" })).2.1
    { rtype := some "build" } "build" (by decide) rfl (by decide)

end Gopherbot
